import Mathlib

/-!
# A verification development for Data.js (v0.2.0, `src/data.js`)

This file gives a shallow embedding, in Lean 4, of the core in-memory graph
engine of Data.js version 0.2.0: `Data.Hash` (an ordered hash), `Data.Property`,
`Data.Type`, `Data.Object` and `Data.Graph` (`merge`, `build`,
`setValueProperty`, `get`, `set`).

Modelling conventions, chosen once and used throughout:

* JavaScript primitive values are the inductive `JSVal`; `undefined` and `null`
  are explicit constructors.  JavaScript truthiness is `JSVal.truthy` and the
  string coercion used for object keys is `JSVal.toKey`.
* A JavaScript record (`{...}` object used as data) is an association list with
  string keys; `alookup`, `aset` and `aerase` model property read, property
  assignment and `delete`.  JavaScript records have unique keys, so the
  association list holds at most one binding per key in every reachable state.
* Mutation is modelled by state passing: the graph state owns every node, and
  node references (`this.type`, `Data.Object` references, `referencedObjects`)
  are stored as keys resolved against the current state at use time.  The
  `referencedObjects` hashes store `Data.Object`s (always truthy) keyed by the
  object key, so they are projected to their ordered key list.
* A thrown JavaScript exception is an `Option String` result component carrying
  the thrown string (Data.js throws plain strings); the state at the moment of
  the throw is returned alongside, which is exactly what a caller that catches
  the exception observes.
-/

set_option autoImplicit false
set_option maxRecDepth 8000

namespace Data

/-- JavaScript primitive values as they occur in Data.js graph data. -/
inductive JSVal where
  | undefined
  | jnull
  | jbool (b : Bool)
  | jnum (n : Int)
  | jstr (s : String)
deriving DecidableEq, Repr

/-- JavaScript truthiness of a primitive value. -/
def JSVal.truthy : JSVal → Bool
  | .undefined => false
  | .jnull => false
  | .jbool b => b
  | .jnum n => n != 0
  | .jstr s => s != ""

/-- JavaScript string coercion, as applied to a value used as an object key
(`this.data[key]`). -/
def JSVal.toKey : JSVal → String
  | .undefined => "undefined"
  | .jnull => "null"
  | .jbool true => "true"
  | .jbool false => "false"
  | .jnum n => toString n
  | .jstr s => s

/-- Property read on a JavaScript record: `r[k]`, `undefined` (`none`) when the
key is absent. -/
def alookup {V : Type} : List (String × V) → String → Option V
  | [], _ => none
  | (a, b) :: l, k => if a = k then some b else alookup l k

/-- Property assignment on a JavaScript record: `r[k] = v` overwrites an
existing binding in place and otherwise appends. -/
def aset {V : Type} : List (String × V) → String → V → List (String × V)
  | [], k, v => [(k, v)]
  | (a, b) :: l, k, v => if a = k then (a, v) :: l else (a, b) :: aset l k v

/-- Property deletion on a JavaScript record: `delete r[k]` removes the binding
for `k` (records have at most one). -/
def aerase {V : Type} : List (String × V) → String → List (String × V)
  | [], _ => []
  | (a, b) :: l, k => if a = k then l else (a, b) :: aerase l k

@[simp] theorem alookup_nil {V : Type} (k : String) :
    alookup ([] : List (String × V)) k = none := rfl

theorem alookup_cons {V : Type} (a : String) (b : V) (l : List (String × V)) (k : String) :
    alookup ((a, b) :: l) k = if a = k then some b else alookup l k := rfl

@[simp] theorem alookup_aset_self {V : Type} (l : List (String × V)) (k : String) (v : V) :
    alookup (aset l k v) k = some v := by
  induction l with
  | nil => simp [aset, alookup]
  | cons hd tl ih =>
    obtain ⟨a, b⟩ := hd
    by_cases h : a = k
    · simp [aset, alookup, h]
    · simp [aset, alookup, h, ih]

theorem alookup_aset_ne {V : Type} (l : List (String × V)) (k k' : String) (v : V)
    (h : k ≠ k') : alookup (aset l k v) k' = alookup l k' := by
  induction l with
  | nil => simp [aset, alookup, h]
  | cons hd tl ih =>
    obtain ⟨a, b⟩ := hd
    by_cases ha : a = k
    · subst ha
      simp [aset, alookup, h]
    · simp [aset, alookup, ha, ih]

theorem aset_lookup_self {V : Type} (l : List (String × V)) (k : String) (v : V)
    (h : alookup l k = some v) : aset l k v = l := by
  induction l with
  | nil => simp [alookup] at h
  | cons hd tl ih =>
    obtain ⟨a, b⟩ := hd
    by_cases ha : a = k
    · subst ha
      simp [alookup] at h
      simp [aset, h]
    · simp [alookup, ha] at h
      simp [aset, ha, ih h]

/-- Models `Data.Hash`: an insertion-ordered hash.  `data` is the backing JavaScript
record, `keyOrder` the ordered key list, `length` the entry counter maintained
by `set`. -/
structure Hash (V : Type) where
  data : List (String × V)
  keyOrder : List String
  length : Nat
deriving DecidableEq, Repr

/-- Models `new Data.Hash()`. -/
def Hash.empty {V : Type} : Hash V := ⟨[], [], 0⟩

/-- Models `Data.Hash.prototype.get`: `this.data[key]`. -/
def Hash.get {V : Type} (h : Hash V) (key : String) : Option V :=
  alookup h.data key

/-- Models `Data.Hash.prototype.set`.  `truthy` is the JavaScript truthiness of the
stored value type (`fun _ => true` when nodes/objects are stored).  A `none`
key models `set(undefined, ...)`, which returns the hash unchanged.  The key is
pushed (or spliced in at `targetIndex`) exactly when `this.data[key]` is falsy;
only then is `length` incremented. -/
def Hash.set {V : Type} (truthy : V → Bool) :
    Hash V → Option String → V → Option Nat → Hash V
  | h, none, _, _ => h
  | h, some k, value, targetIndex =>
    if (match alookup h.data k with
        | none => true
        | some v => ! truthy v) then
      { data := aset h.data k value,
        keyOrder :=
          match targetIndex with
          | some ti => h.keyOrder.take ti ++ [k] ++ h.keyOrder.drop ti
          | none => h.keyOrder ++ [k],
        length := h.length + 1 }
    else
      { data := aset h.data k value, keyOrder := h.keyOrder, length := h.length }

/-- Models `Data.Hash.prototype.at` (named `atIndex` because `at` is reserved):
`this.data[this.keyOrder[index]]`. -/
def Hash.atIndex {V : Type} (h : Hash V) (index : Nat) : Option V :=
  match h.keyOrder.get? index with
  | none => none
  | some k => alookup h.data k

/-- Models `Data.Hash.prototype.first`. -/
def Hash.first {V : Type} (h : Hash V) : Option V := h.atIndex 0

/-- Models `Data.Hash.prototype.values`: the values in key order.  In every state the
engine reaches, every key in `keyOrder` is bound in `data`, so the `filterMap`
drops nothing. -/
def Hash.values {V : Type} (h : Hash V) : List V :=
  h.keyOrder.filterMap (fun k => alookup h.data k)

/-- Models `Data.Hash.prototype.map`: same keys and order, values transformed. -/
def Hash.map {V W : Type} (h : Hash V) (fn : V → W) : Hash W :=
  { data := h.data.map (fun kv => (kv.1, fn kv.2)), keyOrder := h.keyOrder,
    length := h.length }

/-- The hash viewed as its ordered key/value pairs (the observation used by
`each`/`toArray`). -/
def Hash.entries {V : Type} (h : Hash V) : List (String × V) :=
  h.keyOrder.filterMap (fun k => (alookup h.data k).map (fun v => (k, v)))

/-- C10: after `h.set(k, v)` (two-argument form), `h.get(k)` returns exactly
`v`; and when `k` was already bound to a truthy value, `set` updates the
binding in place, changing neither `length` nor `keyOrder`. -/
theorem C10_hash_set_get (V : Type) (truthy : V → Bool) (h : Hash V) (k : String) (v : V) :
    (Hash.set truthy h (some k) v none).get k = some v ∧
    (∀ w, h.get k = some w → truthy w = true →
      (Hash.set truthy h (some k) v none).length = h.length ∧
      (Hash.set truthy h (some k) v none).keyOrder = h.keyOrder) := by
  constructor
  · unfold Hash.set Hash.get
    cases hlk : alookup h.data k with
    | none => simp [hlk]
    | some w =>
      by_cases hw : truthy w
      · simp [hlk, hw]
      · simp [hlk, hw]
  · intro w hw ht
    unfold Hash.set
    unfold Hash.get at hw
    simp [hw, ht]

/-- Witness for C10 at a concrete hash with a truthy binding at `"a"`. -/
theorem C10_hash_set_get_witness :
    (Hash.set JSVal.truthy ⟨[("a", JSVal.jstr "x")], ["a"], 1⟩ (some "a")
        (JSVal.jstr "y") none).get "a" = some (JSVal.jstr "y") ∧
    (Hash.set JSVal.truthy ⟨[("a", JSVal.jstr "x")], ["a"], 1⟩ (some "a")
        (JSVal.jstr "y") none).length = 1 ∧
    (Hash.set JSVal.truthy ⟨[("a", JSVal.jstr "x")], ["a"], 1⟩ (some "a")
        (JSVal.jstr "y") none).keyOrder = ["a"] := by
  have h := C10_hash_set_get JSVal JSVal.truthy ⟨[("a", JSVal.jstr "x")], ["a"], 1⟩
    "a" (JSVal.jstr "y")
  exact ⟨h.1, (h.2 (JSVal.jstr "x") (by decide) (by decide)).1,
    (h.2 (JSVal.jstr "x") (by decide) (by decide)).2⟩

/-- Models `Data.VALUE_TYPES`. -/
def VALUE_TYPES : List String := ["string", "number", "boolean", "date"]

/-- Models `Data.isValueType`. -/
def isValueType (t : String) : Bool := VALUE_TYPES.contains t

/-- A raw property value inside a record handed to `Data.Object`: either a
single value or an array of values (`_.isArray` decides which). -/
inductive RawVal where
  | one (v : JSVal)
  | arr (vs : List JSVal)
deriving DecidableEq, Repr

/-- Models `_.isArray(property) ? property : [property]`. -/
def RawVal.toValues : RawVal → List JSVal
  | .one v => [v]
  | .arr vs => vs

/-- The string a raw value coerces to when used as a hash key; `none` models
`undefined` (which `Data.Node.get` guards against).  An array coerces the way
JavaScript stringifies arrays (elements joined by commas). -/
def RawVal.asKey : RawVal → Option String
  | .one .undefined => none
  | .one v => some v.toKey
  | .arr vs => some (String.intercalate "," (vs.map JSVal.toKey))

/-- A raw node record, as supplied to `Data.Graph.merge` / `new Data.Object`:
a JavaScript record from property keys to raw values (including the `type`,
`_id` and `_rev` keys when present). -/
abbrev RawRecord := List (String × RawVal)

/-- Models `node.type` read as a hash key: used by `merge` for the type lookup. -/
def typeKeyOf (r : RawRecord) : Option String :=
  match alookup r "type" with
  | none => none
  | some rv => rv.asKey

/-- The per-property options record of a type declaration
(`{name, unique, expected_type}`). -/
structure PropertySpec where
  name : String
  unique : Bool
  expectedType : String
deriving DecidableEq, Repr

/-- A registered value node (`new Data.Node({value: v})` with a
`referencedObjects` hash): the value plus the ordered keys of the objects
registered on it. -/
structure ValueNode where
  val : JSVal
  referencedObjects : List String
deriving DecidableEq, Repr

/-- An entry of the `values` registry of a property: either a value node or a
referenced `Data.Object`, stored by key. -/
inductive RegEntry where
  | node (n : ValueNode)
  | obj (key : String)
deriving DecidableEq, Repr

/-- Models `Data.Property`: key, `unique`/`name`/`expected_type` options, and the
`values` registry hash.  The back-reference `this.type` to the owning
`Data.Type` is implicit (the property lives inside the hash of that type). -/
structure Property where
  key : String
  unique : Bool
  name : String
  expectedType : String
  values : Hash RegEntry
deriving DecidableEq, Repr

/-- Models `new Data.Property(type, key, options)` (the `type` back-reference is
implicit, see `Property`). -/
def mkProperty (key : String) (options : PropertySpec) : Property :=
  { key := key, unique := options.unique, name := options.name,
    expectedType := options.expectedType, values := Hash.empty }

/-- The declarative shape of a schema type node in the graph exchange format
(`{type: "/type/type", name, parent?, properties}`).  The later Data.js
exchange format declares a `parent` link here, which is why the field exists;
the `Data.Type` constructor of this version never reads it. -/
structure TypeSpec where
  name : String
  parent : Option String
  properties : List (String × PropertySpec)
deriving DecidableEq, Repr

/-- Models `Data.Type` (named `TypeNode`: `Type` is reserved in Lean): key, name, the
`properties` hash built from the declaration, and the `objects` hash of
registered member keys (objects are stored; always truthy, so only the key
order is observable). -/
structure TypeNode where
  key : String
  name : String
  properties : Hash Property
  objects : Hash String
deriving DecidableEq, Repr

/-- Models `new Data.Type(g, key, type)`: extracts the declared properties in order.
The graph back-reference `this.g` is the enclosing state and is not stored. -/
def mkType (key : String) (t : TypeSpec) : TypeNode :=
  { key := key, name := t.name,
    properties := t.properties.foldl
      (fun acc kv => acc.set (fun _ => true) (some kv.1) (mkProperty kv.1 kv.2) none)
      Hash.empty,
    objects := Hash.empty }

/-- An entry of the per-property hash of an object (`this._properties[p.key]`):
either a referenced `Data.Object` (stored by key) or a value node.  The engine
stores the same value node in the object hash and in the `values` registry of
the property; the registry copy is the one whose `referencedObjects` the engine
reads back, so the object-side entry keeps only the value. -/
inductive PEntry where
  | obj (key : String)
  | val (v : JSVal)
deriving DecidableEq, Repr

/-- Models `Data.Object`: key, the `_id`/`_rev` attributes pulled off the raw record,
the type (stored as the key it was looked up under and resolved against the
current state at use time), the memoized raw data, the `_properties` record of
per-property hashes, and the `referencedObjects` key list. -/
structure ObjectNode where
  key : String
  idField : Option RawVal
  revField : Option RawVal
  typeKey : Option String
  data : RawRecord
  props : List (String × Hash PEntry)
  referencedObjects : List String
deriving DecidableEq, Repr

/-- Models `new Data.Object(g, key, data)`: reads and deletes `_id` and `_rev` from
the record handed in by the caller, resolves `this.type` from `data.type`, and memoizes the
(mutated) record as `this.data`. -/
def mkObject (key : String) (data : RawRecord) : ObjectNode :=
  let idv := alookup data "_id"
  let d1 := aerase data "_id"
  let revv := alookup d1 "_rev"
  let d2 := aerase d1 "_rev"
  { key := key, idField := idv, revField := revv, typeKey := typeKeyOf d2,
    data := d2, props := [], referencedObjects := [] }

/-- A node of the `objects` hash of the graph: a schema type or a data object. -/
inductive GNode where
  | typeNode (t : TypeNode)
  | objNode (o : ObjectNode)
deriving DecidableEq, Repr

/-- Models `Data.Graph`: the `objects` hash is `this._properties["objects"]`. -/
structure Graph where
  objects : Hash GNode
deriving DecidableEq, Repr

/-- Models `new Data.Graph()` before any merge. -/
def emptyGraph : Graph := { objects := Hash.empty }

/-- Models `Data.Graph.prototype.get` with one argument: the node registered under
`key`. -/
def Graph.get (g : Graph) (key : String) : Option GNode := g.objects.get key

/-- The node under `key` when it is a `Data.Object`. -/
def Graph.getObj (g : Graph) (key : String) : Option ObjectNode :=
  match g.objects.get key with
  | some (.objNode o) => some o
  | _ => none

/-- In-place mutation of the object stored under `key` (a no-op when the slot
is absent or holds a type, matching an update through a stale reference the
model never creates). -/
def updObj (g : Graph) (key : String) (f : ObjectNode → ObjectNode) : Graph :=
  match g.objects.get key with
  | some (.objNode o) =>
      { objects := g.objects.set (fun _ => true) (some key) (.objNode (f o)) none }
  | _ => g

/-- In-place mutation of the type stored under `key`. -/
def updType (g : Graph) (key : String) (f : TypeNode → TypeNode) : Graph :=
  match g.objects.get key with
  | some (.typeNode t) =>
      { objects := g.objects.set (fun _ => true) (some key) (.typeNode (f t)) none }
  | _ => g

/-- Models `referencedObjects.set(key, obj)`: the stored object is truthy, so the
ordered key list gains `key` exactly when it is new. -/
def insertRef (refs : List String) (k : String) : List String :=
  if refs.contains k then refs else refs ++ [k]

/-- Models `Data.Node.prototype.set` on the `_properties` record of an object: creates the
per-property hash on demand, then sets `key` in it (stored values are nodes,
hence truthy). -/
def nodeSet (props : List (String × Hash PEntry)) (property key : String)
    (value : PEntry) : List (String × Hash PEntry) :=
  let h := match alookup props property with
    | some h => h
    | none => Hash.empty
  aset props property (h.set (fun _ => true) (some key) value none)

/-- In-place mutation of one property inside the `properties` hash of a type. -/
def propUpd (ps : Hash Property) (key : String) (f : Property → Property) :
    Hash Property :=
  match ps.get key with
  | some p => ps.set (fun _ => true) (some key) (f p) none
  | none => ps

/-- The declarative shape of one entry of the graph exchange format handed to
`merge`: a schema node (`type === "/type/type"`) or a data node. -/
inductive GSpec where
  | tspec (t : TypeSpec)
  | ospec (r : RawRecord)
deriving DecidableEq, Repr

/-- First pass of `Data.Graph.prototype.merge`: register every schema node, in
the iteration order of the incoming graph. -/
def processTypes (g : Graph) : List (String × GSpec) → Graph
  | [] => g
  | (key, .tspec t) :: rest =>
      processTypes
        { objects := g.objects.set (fun _ => true) (some key) (.typeNode (mkType key t)) none }
        rest
  | (_, .ospec _) :: rest => processTypes g rest

/-- The string thrown by `merge` when the type of an object node is not
registered. -/
def typeNotFoundMsg (t key : String) : String :=
  "Type \x27" ++ t ++ "\x27 not found for " ++ key ++ "..."

/-- Second pass of `merge`: register every object node, reusing an existing
node under the same key (`that.get("objects", key) || new Data.Object(...)` --
the constructor is short-circuited away for an existing key), then register
the object on its type, throwing when the type is not found.  The registration
of the object under its key happens before the type check. -/
def processObjects (g : Graph) : List (String × GSpec) → Graph × Option String
  | [] => (g, none)
  | (_, .tspec _) :: rest => processObjects g rest
  | (key, .ospec r) :: rest =>
      let res : GNode :=
        match g.objects.get key with
        | some n => n
        | none => .objNode (mkObject key r)
      let g1 : Graph := { objects := g.objects.set (fun _ => true) (some key) res none }
      match typeKeyOf r with
      | none => (g1, some (typeNotFoundMsg "undefined" key))
      | some t =>
        match g1.objects.get t with
        | none => (g1, some (typeNotFoundMsg t key))
        | some (.typeNode T) =>
            processObjects
              { objects := g1.objects.set (fun _ => true) (some t)
                  (.typeNode { T with objects := T.objects.set (fun _ => true) (some key) key none })
                  none }
              rest
        | some (.objNode _) =>
            -- the source calls `set("objects", key, res)` on that (object) node;
            -- the hash it creates there is never read back
            processObjects g1 rest

/-- Models `Data.Object.prototype.setValueProperty`, inner loop over `values`: for
each value, reuse the registered value node for its key (or mint a fresh one),
register the owning object on it, store it under the property hash of the object and
re-store it in the `values` registry of the property. -/
def svpValues (g : Graph) (okey pkey tkey : String) : List JSVal → Graph
  | [] => g
  | v :: rest =>
      let pOpt := match g.objects.get tkey with
        | some (.typeNode T) => T.properties.get pkey
        | _ => none
      match pOpt with
      | none => g
      | some p =>
        match p.values.get v.toKey with
        | some (.obj rk) =>
            let g1 := updObj g rk (fun r =>
              { r with referencedObjects := insertRef r.referencedObjects okey })
            let g2 := updObj g1 okey (fun o =>
              { o with props := nodeSet o.props pkey v.toKey (.obj rk) })
            let g3 := updType g2 tkey (fun T =>
              { T with properties := propUpd T.properties pkey (fun p2 =>
                  { p2 with values := p2.values.set (fun _ => true) (some v.toKey) (.obj rk) none }) })
            svpValues g3 okey pkey tkey rest
        | some (.node n) =>
            let n' := { n with referencedObjects := insertRef n.referencedObjects okey }
            let g2 := updObj g okey (fun o =>
              { o with props := nodeSet o.props pkey v.toKey (.val n.val) })
            let g3 := updType g2 tkey (fun T =>
              { T with properties := propUpd T.properties pkey (fun p2 =>
                  { p2 with values := p2.values.set (fun _ => true) (some v.toKey) (.node n') none }) })
            svpValues g3 okey pkey tkey rest
        | none =>
            let n' : ValueNode := { val := v, referencedObjects := insertRef [] okey }
            let g2 := updObj g okey (fun o =>
              { o with props := nodeSet o.props pkey v.toKey (.val v) })
            let g3 := updType g2 tkey (fun T =>
              { T with properties := propUpd T.properties pkey (fun p2 =>
                  { p2 with values := p2.values.set (fun _ => true) (some v.toKey) (.node n') none }) })
            svpValues g3 okey pkey tkey rest

/-- Models `Data.Object.prototype.setValueProperty`: looks the property up on the
type of the object (a missing property or type crashes in JavaScript, modelled as
`"TypeError"`), resets the per-property hash of the object, then runs the value
loop. -/
def setValueProperty (g : Graph) (okey property : String) (values : List JSVal) :
    Graph × Option String :=
  match g.getObj okey with
  | none => (g, some "TypeError")
  | some o =>
    match o.typeKey with
    | none => (g, some "TypeError")
    | some tk =>
      match g.objects.get tk with
      | some (.typeNode T) =>
        match T.properties.get property with
        | none => (g, some "TypeError")
        | some p =>
          let g1 := updObj g okey (fun o2 =>
            { o2 with props := aset o2.props p.key Hash.empty })
          (svpValues g1 okey p.key tk values, none)
      | _ => (g, some "TypeError")

/-- The object-reference branch of `Data.Object.prototype.build`, looping over
`values`: resolve each referenced object (throwing when absent; a schema node
in the slot has no `referencedObjects` hash, which crashes in JavaScript),
register the building object on it, and store the reference on the object and
in the `values` registry of the property. -/
def buildRefValues (g : Graph) (okey pkey tkey : String) : List JSVal → Graph × Option String
  | [] => (g, none)
  | v :: rest =>
      match g.objects.get v.toKey with
      | none => (g, some ("Can\x27t reference " ++ v.toKey))
      | some (.typeNode _) => (g, some "TypeError")
      | some (.objNode res) =>
          let g1 := updObj g v.toKey (fun r =>
            { r with referencedObjects := insertRef r.referencedObjects okey })
          let g2 := updObj g1 okey (fun o =>
            { o with props := nodeSet o.props pkey res.key (PEntry.obj res.key) })
          let g3 := updType g2 tkey (fun T =>
            { T with properties := propUpd T.properties pkey (fun p2 =>
                { p2 with values := p2.values.set (fun _ => true) (some res.key) (.obj res.key) none }) })
          buildRefValues g3 okey pkey tkey rest

/-- Models `Data.Object.prototype.build`, iterating the memoized raw data: skip
`type`, look the key up among the properties of the type (throwing when absent),
reset the per-property hash, then follow the object-type or value-type
branch. -/
def buildData (g : Graph) (okey : String) : RawRecord → Graph × Option String
  | [] => (g, none)
  | (key, rawv) :: rest =>
      if key = "type" then buildData g okey rest
      else
        match g.getObj okey with
        | none => (g, some "TypeError")
        | some o =>
          match o.typeKey with
          | none => (g, some "TypeError")
          | some tk =>
            match g.objects.get tk with
            | some (.typeNode T) =>
              match T.properties.get key with
              | none =>
                  (g, some ("property " ++ key ++ " not found at " ++ T.key ++
                    " for object " ++ okey))
              | some p =>
                let g1 := updObj g okey (fun o2 =>
                  { o2 with props := aset o2.props p.key Hash.empty })
                if isValueType p.expectedType then
                  match setValueProperty g1 okey p.key rawv.toValues with
                  | (g2, some e) => (g2, some e)
                  | (g2, none) => buildData g2 okey rest
                else
                  match buildRefValues g1 okey p.key tk rawv.toValues with
                  | (g2, some e) => (g2, some e)
                  | (g2, none) => buildData g2 okey rest
            | _ => (g, some "TypeError")

/-- The object (non-schema) node keys of the graph, in hash order:
`this.objects()`. -/
def objectKeys (g : Graph) : List String :=
  g.objects.keyOrder.filter (fun k =>
    match alookup g.objects.data k with
    | some (.objNode _) => true
    | _ => false)

/-- Third pass of `merge`: `this.objects().each(function(r) { r.build(); })`,
building each object from its memoized raw data. -/
def buildAll (g : Graph) : List String → Graph × Option String
  | [] => (g, none)
  | k :: rest =>
      match g.getObj k with
      | none => buildAll g rest
      | some o =>
        match buildData g k o.data with
        | (g2, some e) => (g2, some e)
        | (g2, none) => buildAll g2 rest

/-- Models `Data.Graph.prototype.merge`. -/
def Graph.merge (g : Graph) (input : List (String × GSpec)) : Graph × Option String :=
  let g1 := processTypes g input
  match processObjects g1 input with
  | (g2, some e) => (g2, some e)
  | (g2, none) => buildAll g2 (objectKeys g2)

/-- Models `new Data.Graph(g)`. -/
def newGraph (input : List (String × GSpec)) : Graph × Option String :=
  emptyGraph.merge input

/-- The `n.val` of a node stored in the per-property hash of an object (a referenced
`Data.Object` has no `val`, hence `undefined`). -/
def pentryVal : PEntry → JSVal
  | .val v => v
  | .obj _ => .undefined

/-- The result of `Data.Object.prototype.get` with one argument, as observed by
a caller: `null`, `undefined`, a plain value, a referenced object (by key), a
hash of referenced objects, or a hash of values. -/
inductive JSRes where
  | jnull
  | jundefined
  | jval (v : JSVal)
  | jobj (key : String)
  | ohash (entries : List (String × PEntry))
  | vhash (entries : List (String × JSVal))
deriving DecidableEq, Repr

/-- Models `Data.Object.prototype.get` with one argument: `null` when the property is
not declared on the type of the object; otherwise the unique/non-unique
object-type/value-type fourway of the source. -/
def objGet (g : Graph) (okey property : String) : JSRes :=
  match g.getObj okey with
  | none => .jundefined
  | some o =>
    let TOpt := match o.typeKey with
      | some tk =>
          (match g.objects.get tk with
           | some (.typeNode T) => some T
           | _ => none)
      | none => none
    match TOpt with
    | none => .jundefined
    | some T =>
      match T.properties.get property with
      | none => .jnull
      | some p =>
        if isValueType p.expectedType then
          let valuesHash : Hash JSVal :=
            match alookup o.props property with
            | none => Hash.empty
            | some h => h.map pentryVal
          if p.unique then
            match valuesHash.first with
            | none => .jundefined
            | some v => .jval v
          else .vhash valuesHash.entries
        else
          if p.unique then
            match alookup o.props property with
            | none => .jnull
            | some h =>
              match h.first with
              | none => .jundefined
              | some (PEntry.obj k) => .jobj k
              | some (PEntry.val v) => .jval v
          else
            match alookup o.props property with
            | none => .jundefined
            | some h => .ohash h.entries

/-- Models `Data.Object.prototype.set` with a record argument: for each key look the
property up on the type (a missing property crashes in JavaScript), throw on
an object-type property, otherwise delegate to `setValueProperty`. -/
def objSet (g : Graph) (okey : String) : List (String × RawVal) → Graph × Option String
  | [] => (g, none)
  | (key, value) :: rest =>
      match g.getObj okey with
      | none => (g, some "TypeError")
      | some o =>
        match o.typeKey with
        | none => (g, some "TypeError")
        | some tk =>
          match g.objects.get tk with
          | some (.typeNode T) =>
            match T.properties.get key with
            | none => (g, some "TypeError")
            | some p =>
              if isValueType p.expectedType then
                match setValueProperty g okey key value.toValues with
                | (g2, some e) => (g2, some e)
                | (g2, none) => objSet g2 okey rest
              else
                (g, some "Manually setting object properties is not yet implemented.")
          | _ => (g, some "TypeError")

/-- The ordered keys of the objects registered on a property value: the bucket
`property.get("values", value).referencedObjects`, the structure
the `CONTAINS` operator of `Data.Criterion` filters.  This is the grouped secondary lookup
the engine maintains per property value. -/
def bucketRefs (g : Graph) (tkey property value : String) : Option (List String) :=
  match g.objects.get tkey with
  | some (.typeNode T) =>
    match T.properties.get property with
    | some p =>
      match p.values.get value with
      | some (.node n) => some n.referencedObjects
      | some (.obj k) =>
          match g.getObj k with
          | some o => some o.referencedObjects
          | none => none
      | none => none
    | none => none
  | _ => none

/-- The declared property keys of a registered type, in declaration order. -/
def typePropKeys (g : Graph) (tkey : String) : Option (List String) :=
  match g.objects.get tkey with
  | some (.typeNode T) => some T.properties.keyOrder
  | _ => none

/-- The property keys present on a built object (`this._properties`, minus the
bookkeeping the constructor never stores there), in creation order. -/
def objPropKeys (g : Graph) (okey : String) : Option (List String) :=
  (g.getObj okey).map (fun o => o.props.map Prod.fst)

/-- Modelled from the spec: `parseValue(tag, rawValue)` of the specified
Schema component (spec section 4.1) -- a type-directed coercion of a raw value
to its base tag (numeric parse of textual input, strict two-literal boolean
parse, identity on already-conformant values).  No such coercion function
exists in this version of the source; this definition exists only to state
what the specified round-trip would return. -/
def digitVal (c : Char) : Option Nat :=
  if 48 ≤ c.toNat ∧ c.toNat ≤ 57 then some (c.toNat - 48) else none

def digitsToNat : Nat → List Char → Option Nat
  | acc, [] => some acc
  | acc, c :: cs =>
      match digitVal c with
      | none => none
      | some d => digitsToNat (acc * 10 + d) cs

/-- Modelled from the spec: the numeric parse of a textual value (spec section
4.1, `parseValue`); decimal digits with an optional leading minus sign. -/
def specParseInt (s : String) : Option Int :=
  match s.data with
  | [] => none
  | c :: cs =>
      if c.toNat = 45 then
        match cs with
        | [] => none
        | _ => (digitsToNat 0 cs).map (fun n => -(n : Int))
      else (digitsToNat 0 (c :: cs)).map (fun n => (n : Int))

def specParseValue : String → JSVal → Option JSVal
  | "number", .jstr s => (specParseInt s).map JSVal.jnum
  | "number", .jnum n => some (.jnum n)
  | "string", .jstr s => some (.jstr s)
  | "boolean", .jbool b => some (.jbool b)
  | "boolean", .jstr s =>
      if s = "true" then some (.jbool true)
      else if s = "false" then some (.jbool false)
      else none
  | _, _ => none

/-! ## Concrete schemas and graphs used to settle the claims -/

/-- A minimal schema type: `Person` with a unique string property `name`. -/
def personType : TypeSpec :=
  { name := "Person", parent := none,
    properties := [("name", { name := "Name", unique := true, expectedType := "string" })] }

/-- The graph holding `personType` and one person `p1` named `"Ann"`. -/
def personGraph : Graph × Option String :=
  newGraph
    [("/type/person", .tspec personType),
     ("p1", .ospec [("type", .one (.jstr "/type/person")), ("name", .one (.jstr "Ann"))])]

/-- The object node `p1` as `personGraph` builds it. -/
def p1NodeN : ObjectNode :=
  { key := "p1", idField := none, revField := none, typeKey := some "/type/person",
    data := [("type", .one (.jstr "/type/person")), ("name", .one (.jstr "Ann"))],
    props := [("name", ⟨[("Ann", .val (.jstr "Ann"))], ["Ann"], 1⟩)],
    referencedObjects := [] }

/-- The type node `/type/person` as `personGraph` builds it (the `values`
registry of `name` already holds the registered value `"Ann"`). -/
def personTypeNodeN : TypeNode :=
  { key := "/type/person", name := "Person",
    properties := ⟨[("name",
      { key := "name", unique := true, name := "Name", expectedType := "string",
        values := ⟨[("Ann", .node ⟨.jstr "Ann", ["p1"]⟩)], ["Ann"], 1⟩ })], ["name"], 1⟩,
    objects := ⟨[("p1", "p1")], ["p1"], 1⟩ }

/-- The state `personGraph` reaches, in normal form (see `personGraph_eval`). -/
def personGraphN : Graph :=
  ⟨⟨[("/type/person", .typeNode personTypeNodeN), ("p1", .objNode p1NodeN)],
    ["/type/person", "p1"], 2⟩⟩

/-- Building `personGraph` succeeds and reaches exactly `personGraphN`. -/
theorem personGraph_eval : personGraph = (personGraphN, none) := by decide

/-- Registering an object entry whose key is already present in
`personGraphN`: the existing node is kept (the `Data.Object` constructor is
short-circuited away), re-registering it and its type membership changes
nothing, and no failure is raised as long as the type named by the incoming record is
registered. -/
theorem processObjects_p1 (r : RawRecord) (h : typeKeyOf r = some "/type/person") :
    processObjects personGraphN [("p1", .ospec r)] = (personGraphN, none) := by
  simp only [processObjects,
    show personGraphN.objects.get "p1" = some (.objNode p1NodeN) from rfl, h]
  decide

/-- C1 (counterexample): merging a graph that re-declares the already-present
id `p1` (with name `"Zoe"`) does not fail with `DuplicateNode` -- it does not
fail at all -- and the node keeps its previous data (`name` is still
`"Ann"`). -/
theorem C1_counterexample :
    (personGraphN.merge
        [("p1", .ospec [("type", .one (.jstr "/type/person")),
                        ("name", .one (.jstr "Zoe"))])]).2 = none ∧
    objGet (personGraphN.merge
        [("p1", .ospec [("type", .one (.jstr "/type/person")),
                        ("name", .one (.jstr "Zoe"))])]).1 "p1" "name" =
      .jval (.jstr "Ann") := by
  decide

/-- C1 (amended): `merge` re-registers every node of the incoming graph; for
an id that already exists no failure is raised (provided the incoming record
names a registered type) -- the existing node object is kept unchanged and the
data of the incoming record is ignored entirely. -/
theorem C1_merge_existing_keeps_node (r : RawRecord)
    (h : typeKeyOf r = some "/type/person") :
    (personGraphN.merge [("p1", .ospec r)]).2 = none ∧
    (personGraphN.merge [("p1", .ospec r)]).1.get "p1" = personGraphN.get "p1" ∧
    objGet (personGraphN.merge [("p1", .ospec r)]).1 "p1" "name" = .jval (.jstr "Ann") := by
  have hm : personGraphN.merge [("p1", .ospec r)] =
      buildAll personGraphN (objectKeys personGraphN) := by
    unfold Graph.merge
    rw [show processTypes personGraphN [("p1", .ospec r)] = personGraphN from rfl]
    simp only [processObjects_p1 r h]
  rw [hm]
  decide

/-- Witness for C1 at the concrete incoming record
`{type: "/type/person", name: "Zoe"}`. -/
theorem C1_merge_existing_keeps_node_witness :
    (personGraphN.merge
        [("p1", .ospec [("type", .one (.jstr "/type/person")),
                        ("name", .one (.jstr "Zoe"))])]).2 = none ∧
    (personGraphN.merge
        [("p1", .ospec [("type", .one (.jstr "/type/person")),
                        ("name", .one (.jstr "Zoe"))])]).1.get "p1" =
      personGraphN.get "p1" ∧
    objGet (personGraphN.merge
        [("p1", .ospec [("type", .one (.jstr "/type/person")),
                        ("name", .one (.jstr "Zoe"))])]).1 "p1" "name" =
      .jval (.jstr "Ann") :=
  C1_merge_existing_keeps_node
    [("type", .one (.jstr "/type/person")), ("name", .one (.jstr "Zoe"))]
    (by decide)

/-- C2: the grouped-index consistency invariant fails on the code.  Setting
`p1.name` from `"Ann"` to `"Bea"` succeeds and updates the property, but the
`values` bucket for the old value `"Ann"` still lists `p1` among its
registered objects (the registration on the old value node is never removed;
the source marks this with a TODO), so `p1` sits in the buckets of both the
old and the new value while its current value is only `"Bea"`. -/
theorem C2_stale_bucket :
    (objSet personGraphN "p1" [("name", .one (.jstr "Bea"))]).2 = none ∧
    objGet (objSet personGraphN "p1" [("name", .one (.jstr "Bea"))]).1 "p1" "name" =
      .jval (.jstr "Bea") ∧
    bucketRefs (objSet personGraphN "p1" [("name", .one (.jstr "Bea"))]).1
      "/type/person" "name" "Ann" = some ["p1"] ∧
    bucketRefs (objSet personGraphN "p1" [("name", .one (.jstr "Bea"))]).1
      "/type/person" "name" "Bea" = some ["p1"] := by
  decide

/-- C3 (counterexample): a merge that fails on an unknown type does not leave
the node table untouched -- the offending node `x` is inserted into the node
table before the type check throws, and it is still there afterwards. -/
theorem C3_counterexample :
    (personGraphN.merge [("x", .ospec [("type", .one (.jstr "/type/unknown"))])]).2 =
      some ("Type \x27/type/unknown\x27 not found for x...") ∧
    ((personGraphN.merge
        [("x", .ospec [("type", .one (.jstr "/type/unknown"))])]).1.getObj "x").isSome =
      true ∧
    personGraphN.getObj "x" = none := by
  decide

/-- The object node `merge` constructs for the record `{type: t}` under key
`"x"` before checking that `t` is registered. -/
def xNode (t : String) : ObjectNode :=
  { key := "x", idField := none, revField := none, typeKey := some t,
    data := [("type", .one (.jstr t))], props := [], referencedObjects := [] }

/-- The state a failing `merge` of `{x: {type: t}}` into `personGraphN` leaves
behind: the node `x` is already in the node table. -/
def gX (t : String) : Graph :=
  ⟨⟨[("/type/person", .typeNode personTypeNodeN), ("p1", .objNode p1NodeN),
     ("x", .objNode (xNode t))],
    ["/type/person", "p1", "x"], 3⟩⟩

/-- C3 (amended): a merge whose record names an unregistered type `t` fails
with the type-not-found error only after the offending node has been inserted
into the node table; the failed command does not leave the node table
untouched -- it leaves exactly the state `gX t`, in which `x` is present. -/
theorem C3_failed_merge_leaves_node (t : String)
    (h1 : "/type/person" ≠ t) (h2 : "p1" ≠ t) (h3 : "x" ≠ t) :
    personGraphN.merge [("x", .ospec [("type", .one (.jstr t))])] =
      (gX t, some (typeNotFoundMsg t "x")) ∧
    ((gX t).getObj "x").isSome = true ∧
    personGraphN.getObj "x" = none := by
  refine ⟨?_, rfl, rfl⟩
  have hpo : processObjects personGraphN [("x", .ospec [("type", .one (.jstr t))])] =
      (gX t, some (typeNotFoundMsg t "x")) := by
    simp only [processObjects,
      show personGraphN.objects.get "x" = none from rfl,
      show typeKeyOf [("type", RawVal.one (JSVal.jstr t))] = some t from rfl,
      show Hash.set (fun _ => true) personGraphN.objects (some "x")
          (GNode.objNode (mkObject "x" [("type", RawVal.one (JSVal.jstr t))])) none =
        (gX t).objects from rfl,
      show (gX t).objects.get t = none from by
        simp [gX, Hash.get, alookup, h1, h2, h3]]
  unfold Graph.merge
  rw [show processTypes personGraphN [("x", .ospec [("type", .one (.jstr t))])] =
      personGraphN from rfl]
  simp only [hpo]

/-- C8 (counterexample): `get` on the path `["p1", "unknownProp"]` does not
fail with `PropertyNotFound`/`KeyError`: `Data.Object.prototype.get` returns
`null` when the property is not declared on the type of the object. -/
theorem C8_counterexample :
    objGet personGraphN "p1" "unknownProp" = .jnull := by
  decide

/-- C8 (amended): for every key that is not a declared property of the type of the
node, `get` returns `null` (no failure is raised; `get` reads the state and
leaves it unchanged). -/
theorem C8_get_undeclared_returns_null (k : String) (h : "name" ≠ k) :
    objGet personGraphN "p1" k = .jnull := by
  simp only [objGet,
    show personGraphN.getObj "p1" = some p1NodeN from rfl,
    show p1NodeN.typeKey = some "/type/person" from rfl,
    show personGraphN.objects.get "/type/person" = some (.typeNode personTypeNodeN) from rfl]
  simp [personTypeNodeN, Hash.get, alookup, h]

/-- Witness for C8 at the concrete key `"unknownProp"`. -/
theorem C8_get_undeclared_returns_null_witness :
    objGet personGraphN "p1" "unknownProp" = .jnull :=
  C8_get_undeclared_returns_null "unknownProp" (by decide)

/-- Witness for C3 at the concrete unknown type `"/type/unknown"`. -/
theorem C3_failed_merge_leaves_node_witness :
    personGraphN.merge [("x", .ospec [("type", .one (.jstr "/type/unknown"))])] =
      (gX "/type/unknown", some (typeNotFoundMsg "/type/unknown" "x")) ∧
    ((gX "/type/unknown").getObj "x").isSome = true ∧
    personGraphN.getObj "x" = none :=
  C3_failed_merge_leaves_node "/type/unknown" (by decide) (by decide) (by decide)

/-- A base schema type `Entity` with one property `a`. -/
def entityType : TypeSpec :=
  { name := "Entity", parent := none,
    properties := [("a", { name := "A", unique := true, expectedType := "string" })] }

/-- A schema type `Child` declared with parent `/type/entity` and one own
property `b`. -/
def childType : TypeSpec :=
  { name := "Child", parent := some "/type/entity",
    properties := [("b", { name := "B", unique := true, expectedType := "string" })] }

/-- The graph holding both schema types. -/
def inheritGraph : Graph × Option String :=
  newGraph [("/type/entity", .tspec entityType), ("/type/child", .tspec childType)]

/-- C4 (counterexample): `Child` is declared with parent `Entity`, and
`Entity` declares `a`, yet the property map of `Child` is `["b"]` alone --
`properties(Child)` is not a superset of `properties(Entity)`. -/
theorem C4_counterexample :
    typePropKeys inheritGraph.1 "/type/entity" = some ["a"] ∧
    typePropKeys inheritGraph.1 "/type/child" = some ["b"] ∧
    ¬ ("a" ∈ ["b"]) := by
  decide

/-- C4 (amended): the `Data.Type` constructor builds the property map solely
from the own `properties` declaration of the type; a `parent` declaration is
ignored entirely, so no ancestor chain is resolved and descendant property
maps do not inherit ancestor declarations. -/
theorem C4_parent_ignored (key name : String) (par1 par2 : Option String)
    (props : List (String × PropertySpec)) :
    mkType key { name := name, parent := par1, properties := props } =
      mkType key { name := name, parent := par2, properties := props } := rfl

/-! ## C5: node construction from raw input -/

/-- The person graph where `p1` carries a key `unknownProp` that the schema
does not declare. -/
def extraKeyGraph : Graph × Option String :=
  newGraph
    [("/type/person", .tspec personType),
     ("p1", .ospec [("type", .one (.jstr "/type/person")),
                    ("name", .one (.jstr "Ann")),
                    ("unknownProp", .one (.jstr "X"))])]

/-- The person graph where `p1` is created without the declared `name` key. -/
def noNameGraph : Graph × Option String :=
  newGraph
    [("/type/person", .tspec personType),
     ("p1", .ospec [("type", .one (.jstr "/type/person"))])]

/-- The person graph where `p1` is created with an arbitrary raw `name`
value. -/
def namedGraph (v : JSVal) : Graph × Option String :=
  newGraph
    [("/type/person", .tspec personType),
     ("p1", .ospec [("type", .one (.jstr "/type/person")), ("name", .one v)])]

/-- The state `namedGraph v` reaches, in normal form
(see `namedGraph_eval`). -/
def namedGraphN (v : JSVal) : Graph :=
  ⟨⟨[("/type/person", .typeNode
      { key := "/type/person", name := "Person",
        properties := ⟨[("name",
          { key := "name", unique := true, name := "Name", expectedType := "string",
            values := ⟨[(v.toKey, .node ⟨v, ["p1"]⟩)], [v.toKey], 1⟩ })], ["name"], 1⟩,
        objects := ⟨[("p1", "p1")], ["p1"], 1⟩ }),
     ("p1", .objNode
      { key := "p1", idField := none, revField := none, typeKey := some "/type/person",
        data := [("type", .one (.jstr "/type/person")), ("name", .one v)],
        props := [("name", ⟨[(v.toKey, .val v)], [v.toKey], 1⟩)],
        referencedObjects := [] })],
    ["/type/person", "p1"], 2⟩⟩

set_option maxHeartbeats 2000000 in
/-- Creating `p1` with raw name `v` succeeds and reaches exactly
`namedGraphN v`, for every raw value `v`. -/
theorem namedGraph_eval (v : JSVal) : namedGraph v = (namedGraphN v, none) := rfl

set_option maxHeartbeats 1000000 in
/-- Reading `name` back from `namedGraphN v` yields the raw `v`. -/
theorem objGet_named (v : JSVal) : objGet (namedGraphN v) "p1" "name" = .jval v := by
  simp only [objGet,
    show (namedGraphN v).getObj "p1" = some
      { key := "p1", idField := none, revField := none, typeKey := some "/type/person",
        data := [("type", .one (.jstr "/type/person")), ("name", .one v)],
        props := [("name", ⟨[(v.toKey, .val v)], [v.toKey], 1⟩)],
        referencedObjects := [] } from rfl]
  simp [Hash.get, alookup, Hash.map, Hash.first, Hash.atIndex, pentryVal, isValueType,
    VALUE_TYPES]

/-- C5 (counterexample): a raw input key that is not in the property set of the
schema is not silently dropped -- `build` throws a property-not-found error for
it, and the whole creation fails. -/
theorem C5_counterexample :
    extraKeyGraph.2 = some "property unknownProp not found at /type/person for object p1" := by
  decide

set_option maxHeartbeats 1000000 in
/-- C5 (amended): `create` followed by `get(id)` returns a node whose property
set is exactly the declared keys present in the raw input: a raw key outside
the schema makes creation fail (see the counterexample), and a schema key
missing from the input stays absent -- reading it yields `undefined`, not a
default value. -/
theorem C5_created_node_properties (v : JSVal) :
    (namedGraph v).2 = none ∧
    objGet (namedGraph v).1 "p1" "name" = .jval v ∧
    objPropKeys (namedGraph v).1 "p1" = some ["name"] ∧
    noNameGraph.2 = none ∧
    objGet noNameGraph.1 "p1" "name" = .jundefined ∧
    objPropKeys noNameGraph.1 "p1" = some [] ∧
    extraKeyGraph.2 =
      some "property unknownProp not found at /type/person for object p1" := by
  refine ⟨?_, ?_, ?_, by decide, by decide, by decide, by decide⟩
  · rw [namedGraph_eval]
  · rw [namedGraph_eval]
    exact objGet_named v
  · rw [namedGraph_eval]
    rfl

/-! ## C6: the set/get round trip on a value-typed property -/

/-- A schema type `Agent` with a unique property `age` of base type
`number`. -/
def numType : TypeSpec :=
  { name := "Agent", parent := none,
    properties := [("age", { name := "Age", unique := true, expectedType := "number" })] }

/-- The graph with the `Agent` type and one agent `n1` carrying no `age`. -/
def agentGraph : Graph × Option String :=
  newGraph [("/type/agent", .tspec numType),
            ("n1", .ospec [("type", .one (.jstr "/type/agent"))])]

/-- The state `agentGraph` reaches, in normal form (see `agentGraph_eval`). -/
def agentGraphN : Graph :=
  ⟨⟨[("/type/agent", .typeNode
      { key := "/type/agent", name := "Agent",
        properties := ⟨[("age",
          { key := "age", unique := true, name := "Age", expectedType := "number",
            values := ⟨[], [], 0⟩ })], ["age"], 1⟩,
        objects := ⟨[("n1", "n1")], ["n1"], 1⟩ }),
     ("n1", .objNode
      { key := "n1", idField := none, revField := none, typeKey := some "/type/agent",
        data := [("type", .one (.jstr "/type/agent"))],
        props := [], referencedObjects := [] })],
    ["/type/agent", "n1"], 2⟩⟩

/-- Building `agentGraph` succeeds and reaches exactly `agentGraphN`. -/
theorem agentGraph_eval : agentGraph = (agentGraphN, none) := by decide

/-- The state reached after `n1.set({age: v})`, in normal form (see
`agentSet_eval`). -/
def agentSetN (v : JSVal) : Graph :=
  ⟨⟨[("/type/agent", .typeNode
      { key := "/type/agent", name := "Agent",
        properties := ⟨[("age",
          { key := "age", unique := true, name := "Age", expectedType := "number",
            values := ⟨[(v.toKey, .node ⟨v, ["n1"]⟩)], [v.toKey], 1⟩ })], ["age"], 1⟩,
        objects := ⟨[("n1", "n1")], ["n1"], 1⟩ }),
     ("n1", .objNode
      { key := "n1", idField := none, revField := none, typeKey := some "/type/agent",
        data := [("type", .one (.jstr "/type/agent"))],
        props := [("age", ⟨[(v.toKey, .val v)], [v.toKey], 1⟩)],
        referencedObjects := [] })],
    ["/type/agent", "n1"], 2⟩⟩

set_option maxHeartbeats 2000000 in
/-- Models `n1.set({age: v})` succeeds and stores the raw `v` (no coercion step
exists between `set` and storage). -/
theorem agentSet_eval (v : JSVal) :
    objSet agentGraphN "n1" [("age", .one v)] = (agentSetN v, none) := rfl

set_option maxHeartbeats 1000000 in
/-- Reading `age` back after the set yields the raw `v`. -/
theorem objGet_agentSet (v : JSVal) : objGet (agentSetN v) "n1" "age" = .jval v := by
  simp only [objGet,
    show (agentSetN v).getObj "n1" = some
      { key := "n1", idField := none, revField := none, typeKey := some "/type/agent",
        data := [("type", .one (.jstr "/type/agent"))],
        props := [("age", ⟨[(v.toKey, .val v)], [v.toKey], 1⟩)],
        referencedObjects := [] } from rfl]
  simp [Hash.get, alookup, Hash.map, Hash.first, Hash.atIndex, pentryVal, isValueType,
    VALUE_TYPES]

/-- C6 (counterexample): setting the `number`-typed property `age` to the
textual value `"42"` and reading it back yields the raw string `"42"`, not
the coerced number `42` that the specified `parseValue("number", "42")` would
produce. -/
theorem C6_counterexample :
    objGet (objSet agentGraphN "n1" [("age", .one (.jstr "42"))]).1 "n1" "age" =
      .jval (.jstr "42") ∧
    specParseValue "number" (.jstr "42") = some (.jnum 42) ∧
    JSRes.jval (.jstr "42") ≠ JSRes.jval (.jnum 42) := by
  refine ⟨?_, by decide, by decide⟩
  rw [agentSet_eval]
  exact objGet_agentSet (.jstr "42")

/-- C6 (amended): `set(path, v)` followed by `get(path)` returns the raw `v`
unchanged -- this version performs no type coercion at all -- for every value
`v` on a property whose `values` registry holds no previously registered
value (a registered distinct value sharing the string key of `v` would be
returned instead). -/
theorem C6_set_get_returns_raw (v : JSVal) :
    (objSet agentGraphN "n1" [("age", .one v)]).2 = none ∧
    objGet (objSet agentGraphN "n1" [("age", .one v)]).1 "n1" "age" = .jval v := by
  rw [agentSet_eval]
  exact ⟨rfl, objGet_agentSet v⟩

/-! ## C7: reference resolution through `build` and `get`

The lemmas below track `buildRefValues` over an arbitrary element list: each
step registers the building object on the referenced node (which preserves
the key of every object and the property metadata of every type) and appends one entry
to the per-property hash of the object. -/

theorem alookup_append {V : Type} (l₁ l₂ : List (String × V)) (k : String) :
    alookup (l₁ ++ l₂) k =
      match alookup l₁ k with
      | some v => some v
      | none => alookup l₂ k := by
  induction l₁ with
  | nil => simp [alookup]
  | cons hd tl ih =>
    obtain ⟨a, b⟩ := hd
    by_cases ha : a = k
    · simp [alookup, ha]
    · simp [alookup, ha, ih]

theorem aset_lookup_none {V : Type} (l : List (String × V)) (k : String) (v : V)
    (h : alookup l k = none) : aset l k v = l ++ [(k, v)] := by
  induction l with
  | nil => rfl
  | cons hd tl ih =>
    obtain ⟨a, b⟩ := hd
    by_cases ha : a = k
    · simp [alookup, ha] at h
    · simp only [alookup, ha, if_false] at h
      simp [aset, ha, ih h]

/-- Both branches of `Hash.set` store the value in `data`, so `get` after
`set` only depends on the keys. -/
theorem Hash.get_set {V : Type} (tr : V → Bool) (h : Hash V) (k k' : String) (v : V)
    (ti : Option Nat) :
    (Hash.set tr h (some k) v ti).get k' =
      if k = k' then some v else h.get k' := by
  have hdata : (Hash.set tr h (some k) v ti).data = aset h.data k v := by
    simp only [Hash.set]
    split <;> rfl
  show alookup (Hash.set tr h (some k) v ti).data k' = _
  rw [hdata]
  by_cases hk : k = k'
  · subst hk
    rw [if_pos rfl, alookup_aset_self]
  · rw [if_neg hk, alookup_aset_ne _ _ _ _ hk]
    rfl

/-- Models `Data.Graph.prototype.get` restricted to objects, written as a match that
later proofs can reduce step by step. -/
theorem getObj_unfold (g : Graph) (k : String) :
    g.getObj k = (match g.objects.get k with
                  | some (GNode.objNode o) => some o
                  | _ => none) := rfl

theorem updObj_unfold (g : Graph) (k : String) (f : ObjectNode → ObjectNode) :
    updObj g k f = (match g.objects.get k with
                    | some (GNode.objNode o) =>
                        { objects := g.objects.set (fun _ => true) (some k)
                            (GNode.objNode (f o)) none }
                    | _ => g) := rfl

theorem updType_unfold (g : Graph) (k : String) (f : TypeNode → TypeNode) :
    updType g k f = (match g.objects.get k with
                     | some (GNode.typeNode t) =>
                         { objects := g.objects.set (fun _ => true) (some k)
                             (GNode.typeNode (f t)) none }
                     | _ => g) := rfl

theorem getObj_updObj_self (g : Graph) (k : String) (f : ObjectNode → ObjectNode)
    (o : ObjectNode) (h : g.getObj k = some o) :
    (updObj g k f).getObj k = some (f o) := by
  rw [getObj_unfold] at h
  rw [updObj_unfold]
  cases hg : g.objects.get k with
  | none => simp [hg] at h
  | some n =>
    cases n with
    | typeNode t => simp [hg] at h
    | objNode o2 =>
      simp only [hg] at h ⊢
      rw [getObj_unfold]
      simp only [Hash.get_set, if_pos rfl]
      simp_all

theorem getObj_updObj_ne (g : Graph) (k k' : String) (f : ObjectNode → ObjectNode)
    (h : k ≠ k') : (updObj g k f).getObj k' = g.getObj k' := by
  rw [updObj_unfold]
  cases hg : g.objects.get k with
  | none => simp [hg]
  | some n =>
    cases n with
    | typeNode t => simp [hg]
    | objNode o =>
      simp only [hg]
      rw [getObj_unfold, getObj_unfold]
      simp only [Hash.get_set, if_neg h]

/-- Models `updObj` with a key-preserving update leaves the key view of every slot
unchanged. -/
theorem getObjKey_updObj (g : Graph) (k : String) (f : ObjectNode → ObjectNode)
    (hf : ∀ o, (f o).key = o.key) (k' : String) :
    ((updObj g k f).getObj k').map ObjectNode.key =
      (g.getObj k').map ObjectNode.key := by
  by_cases hk : k = k'
  · subst hk
    cases h : g.getObj k with
    | none =>
      rw [updObj_unfold]
      rw [getObj_unfold] at h
      cases hg : g.objects.get k with
      | none => simp [hg, getObj_unfold]
      | some n =>
        cases n with
        | typeNode t => simp [hg, getObj_unfold]
        | objNode o =>
          rw [hg] at h
          simp at h
    | some o =>
      rw [getObj_updObj_self g k f o h]
      simp [hf]
  · rw [getObj_updObj_ne g k k' f hk]

theorem getObj_updType (g : Graph) (tk : String) (f : TypeNode → TypeNode)
    (k : String) : (updType g tk f).getObj k = g.getObj k := by
  rw [updType_unfold]
  cases hg : g.objects.get tk with
  | none => simp [hg]
  | some n =>
    cases n with
    | objNode o => simp [hg]
    | typeNode t =>
      simp only [hg]
      rw [getObj_unfold, getObj_unfold]
      simp only [Hash.get_set]
      by_cases hk : tk = k
      · subst hk
        rw [if_pos rfl, hg]
      · rw [if_neg hk]

/-- The metadata view of one property of a registered type: whether it exists, its
`unique` flag and its expected type.  `Data.Object.prototype.get` consults
exactly this view (besides the own hashes of the object). -/
def getMeta (g : Graph) (tk pk : String) : Option (Bool × String) :=
  match g.objects.get tk with
  | some (.typeNode T) => (T.properties.get pk).map (fun p => (p.unique, p.expectedType))
  | _ => none

theorem getMeta_unfold (g : Graph) (tk pk : String) :
    getMeta g tk pk = (match g.objects.get tk with
                       | some (GNode.typeNode T) =>
                           (T.properties.get pk).map (fun p => (p.unique, p.expectedType))
                       | _ => none) := rfl

theorem getMeta_updObj (g : Graph) (k : String) (f : ObjectNode → ObjectNode)
    (tk pk : String) : getMeta (updObj g k f) tk pk = getMeta g tk pk := by
  rw [updObj_unfold]
  cases hg : g.objects.get k with
  | none => simp [hg]
  | some n =>
    cases n with
    | typeNode t => simp [hg]
    | objNode o =>
      simp only [hg]
      rw [getMeta_unfold, getMeta_unfold]
      simp only [Hash.get_set]
      by_cases hk : k = tk
      · subst hk
        rw [if_pos rfl, hg]
      · rw [if_neg hk]

theorem getMeta_updType_values (g : Graph) (tk0 pk0 : String)
    (fv : Property → Property)
    (hfv : ∀ p, (fv p).unique = p.unique ∧ (fv p).expectedType = p.expectedType)
    (tk pk : String) :
    getMeta (updType g tk0 (fun T =>
      { T with properties := propUpd T.properties pk0 fv })) tk pk =
      getMeta g tk pk := by
  rw [updType_unfold]
  cases hg : g.objects.get tk0 with
  | none => simp [hg]
  | some n =>
    cases n with
    | objNode o => simp [hg]
    | typeNode T =>
      simp only [hg]
      rw [getMeta_unfold, getMeta_unfold]
      simp only [Hash.get_set]
      by_cases hk : tk0 = tk
      · subst hk
        rw [if_pos rfl, hg]
        have hprop : ((propUpd T.properties pk0 fv).get pk).map
            (fun p => (p.unique, p.expectedType)) =
            (T.properties.get pk).map (fun p => (p.unique, p.expectedType)) := by
          unfold propUpd
          cases hp : T.properties.get pk0 with
          | none => rfl
          | some p0 =>
            rw [Hash.get_set]
            by_cases hpk : pk0 = pk
            · subst hpk
              rw [if_pos rfl, hp]
              simp [(hfv p0).1, (hfv p0).2]
            · rw [if_neg hpk]
        exact hprop
      · rw [if_neg hk]

/-- The per-value loop of the `build` object branch over an arbitrary element
list: when every element resolves to a present object keyed by its own string
form, the loop succeeds and appends exactly one reference entry per element to
the per-property hash of the building object, in element order; the key
view of every object and the property metadata of every type are left unchanged. -/
theorem buildRefValues_ok (vs : List JSVal) :
    ∀ (g : Graph) (okey pkey tkey : String) (o : ObjectNode) (H : Hash PEntry),
    g.getObj okey = some o →
    alookup o.props pkey = some H →
    (∀ v ∈ vs, ((g.getObj v.toKey).map ObjectNode.key) = some v.toKey) →
    (∀ v ∈ vs, alookup H.data v.toKey = none) →
    (vs.map JSVal.toKey).Nodup →
    ∃ g' o',
      buildRefValues g okey pkey tkey vs = (g', none) ∧
      g'.getObj okey = some o' ∧
      o'.typeKey = o.typeKey ∧
      alookup o'.props pkey = some
        ⟨H.data ++ vs.map (fun v => (v.toKey, PEntry.obj v.toKey)),
         H.keyOrder ++ vs.map JSVal.toKey,
         H.length + vs.length⟩ ∧
      (∀ pk2, pk2 ≠ pkey → alookup o'.props pk2 = alookup o.props pk2) ∧
      (∀ k, ((g'.getObj k).map ObjectNode.key) = ((g.getObj k).map ObjectNode.key)) ∧
      (∀ tk pk, getMeta g' tk pk = getMeta g tk pk) := by
  induction vs with
  | nil =>
    intro g okey pkey tkey o H h1 h2 h3 h4 h5
    refine ⟨g, o, rfl, h1, rfl, ?_, fun pk2 _ => rfl, fun k => rfl, fun tk pk => rfl⟩
    simpa using h2
  | cons v rest ih =>
    intro g okey pkey tkey o H h1 h2 h3 h4 h5
    have hres : ((g.getObj v.toKey).map ObjectNode.key) = some v.toKey :=
      h3 v (List.mem_cons_self v rest)
    obtain ⟨r, hr, hrkey⟩ : ∃ r, g.getObj v.toKey = some r ∧ r.key = v.toKey := by
      cases hx : g.getObj v.toKey with
      | none =>
        rw [hx] at hres
        simp at hres
      | some r =>
        rw [hx] at hres
        simp at hres
        exact ⟨r, rfl, hres⟩
    have hr' : g.objects.get v.toKey = some (.objNode r) := by
      rw [getObj_unfold] at hr
      cases hx : g.objects.get v.toKey with
      | none =>
        rw [hx] at hr
        simp at hr
      | some n =>
        cases n with
        | typeNode t =>
          rw [hx] at hr
          simp at hr
        | objNode o2 =>
          rw [hx] at hr
          simp at hr
          rw [hr]
    -- name the three successive states of one loop iteration
    have hstep : buildRefValues g okey pkey tkey (v :: rest) =
        buildRefValues
          (updType
            (updObj
              (updObj g v.toKey (fun r2 =>
                { r2 with referencedObjects := insertRef r2.referencedObjects okey }))
              okey (fun o2 =>
                { o2 with props := nodeSet o2.props pkey r.key (PEntry.obj r.key) }))
            tkey (fun T =>
              { T with properties := propUpd T.properties pkey (fun p2 =>
                  { p2 with values := (p2.values.set (fun _ => true) (some r.key)
                      (.obj r.key) none) }) }))
          okey pkey tkey rest := by
      simp only [buildRefValues, hr']
    have hfr : ∀ o2 : ObjectNode,
        ((fun r2 : ObjectNode =>
          { r2 with referencedObjects := insertRef r2.referencedObjects okey }) o2).key =
          o2.key := fun _ => rfl
    have hfp : ∀ o2 : ObjectNode,
        ((fun o3 : ObjectNode =>
          { o3 with props := nodeSet o3.props pkey r.key (PEntry.obj r.key) }) o2).key =
          o2.key := fun _ => rfl
    set g1 := updObj g v.toKey (fun r2 =>
      { r2 with referencedObjects := insertRef r2.referencedObjects okey }) with hg1eq
    set g2 := updObj g1 okey (fun o2 =>
      { o2 with props := nodeSet o2.props pkey r.key (PEntry.obj r.key) }) with hg2eq
    set g3 := updType g2 tkey (fun T =>
      { T with properties := propUpd T.properties pkey (fun p2 =>
          { p2 with values := (p2.values.set (fun _ => true) (some r.key)
              (.obj r.key) none) }) }) with hg3eq
    -- the object at okey after the two object updates
    obtain ⟨o2, ho2, ho2props, ho2tk⟩ : ∃ o2, g2.getObj okey = some o2 ∧
        o2.props = nodeSet o.props pkey r.key (PEntry.obj r.key) ∧
        o2.typeKey = o.typeKey := by
      by_cases hvo : v.toKey = okey
      · have hg1o : g1.getObj okey = some
            { o with referencedObjects := insertRef o.referencedObjects okey } := by
          rw [hg1eq, hvo]
          exact getObj_updObj_self g okey _ o h1
        exact ⟨_, getObj_updObj_self g1 okey _ _ hg1o, rfl, rfl⟩
      · have hg1o : g1.getObj okey = some o := by
          rw [hg1eq]
          rw [getObj_updObj_ne g v.toKey okey _ hvo]
          exact h1
        exact ⟨_, getObj_updObj_self g1 okey _ _ hg1o, rfl, rfl⟩
    have ho3 : g3.getObj okey = some o2 := by
      rw [hg3eq, getObj_updType]
      exact ho2
    -- the new accumulated hash
    have he : alookup H.data v.toKey = none := h4 v (List.mem_cons_self v rest)
    have hsetH : Hash.set (fun _ => true) H (some r.key) (PEntry.obj r.key) none =
        ⟨H.data ++ [(v.toKey, PEntry.obj v.toKey)],
         H.keyOrder ++ [v.toKey], H.length + 1⟩ := by
      rw [hrkey]
      simp [Hash.set, he, aset_lookup_none H.data v.toKey _ he]
    have ho2hash : alookup o2.props pkey = some
        ⟨H.data ++ [(v.toKey, PEntry.obj v.toKey)],
         H.keyOrder ++ [v.toKey], H.length + 1⟩ := by
      rw [ho2props]
      unfold nodeSet
      rw [h2, alookup_aset_self, hsetH]
    -- key-view and metadata preservation over one iteration
    have hpres3 : ∀ k, ((g3.getObj k).map ObjectNode.key) =
        ((g.getObj k).map ObjectNode.key) := by
      intro k
      rw [hg3eq, getObj_updType, hg2eq]
      rw [getObjKey_updObj g1 okey _ hfp k, hg1eq,
        getObjKey_updObj g v.toKey _ hfr k]
    have hmeta3 : ∀ tk pk, getMeta g3 tk pk = getMeta g tk pk := by
      intro tk pk
      rw [hg3eq, getMeta_updType_values g2 tkey pkey
        (fun p2 => { p2 with values := (p2.values.set (fun _ => true) (some r.key)
          (RegEntry.obj r.key) none) })
        (fun p => ⟨rfl, rfl⟩) tk pk,
        hg2eq, getMeta_updObj, hg1eq, getMeta_updObj]
    -- induction hypotheses for the tail
    have h3' : ∀ v2 ∈ rest, ((g3.getObj v2.toKey).map ObjectNode.key) = some v2.toKey :=
      fun v2 hv2 => (hpres3 v2.toKey).trans (h3 v2 (List.mem_cons_of_mem v hv2))
    have h4' : ∀ v2 ∈ rest,
        alookup (H.data ++ [(v.toKey, PEntry.obj v.toKey)]) v2.toKey = none := by
      intro v2 hv2
      rw [alookup_append]
      rw [h4 v2 (List.mem_cons_of_mem v hv2)]
      have hne : v.toKey ≠ v2.toKey := by
        simp only [List.map_cons, List.nodup_cons] at h5
        intro hEq
        exact h5.1 (hEq ▸ List.mem_map_of_mem JSVal.toKey hv2)
      simp [alookup, hne]
    have h5' : (rest.map JSVal.toKey).Nodup := by
      simp only [List.map_cons, List.nodup_cons] at h5
      exact h5.2
    obtain ⟨g', o', hbr, ho', htk', hhash', hprops', hpres', hmeta'⟩ :=
      ih g3 okey pkey tkey o2 ⟨H.data ++ [(v.toKey, PEntry.obj v.toKey)],
        H.keyOrder ++ [v.toKey], H.length + 1⟩ ho3 ho2hash h3' h4' h5'
    refine ⟨g', o', ?_, ho', htk'.trans ho2tk, ?_, ?_, ?_, ?_⟩
    · rw [hstep]
      exact hbr
    · rw [hhash']
      have hd : (H.data ++ [(v.toKey, PEntry.obj v.toKey)]) ++
          rest.map (fun v2 => (v2.toKey, PEntry.obj v2.toKey)) =
          H.data ++ (v :: rest).map (fun v2 => (v2.toKey, PEntry.obj v2.toKey)) := by
        simp [List.append_assoc]
      have hk : (H.keyOrder ++ [v.toKey]) ++ rest.map JSVal.toKey =
          H.keyOrder ++ (v :: rest).map JSVal.toKey := by
        simp [List.append_assoc]
      have hl : H.length + 1 + rest.length = H.length + (v :: rest).length := by
        simp [List.length_cons]
        omega
      rw [hd, hk, hl]
    · intro pk2 hne
      refine (hprops' pk2 hne).trans ?_
      rw [ho2props]
      unfold nodeSet
      rw [h2]
      exact alookup_aset_ne _ _ _ _ (Ne.symm hne)
    · intro k
      exact (hpres' k).trans (hpres3 k)
    · intro tk pk
      exact (hmeta' tk pk).trans (hmeta3 tk pk)

theorem alookup_map_self {V : Type} (vs : List String) (f : String → V) (k : String)
    (hk : k ∈ vs) : alookup (vs.map (fun x => (x, f x))) k = some (f k) := by
  induction vs with
  | nil => cases hk
  | cons x xs ih =>
    by_cases hx : x = k
    · subst hx
      simp [alookup]
    · simp only [List.map_cons, alookup, hx, if_false]
      exact ih ((List.mem_cons.mp hk).resolve_left (fun h => hx h.symm))

theorem filterMap_entries {V : Type} (l : List (String × V)) (f : String → V) :
    ∀ vs : List String, (∀ k ∈ vs, alookup l k = some (f k)) →
    vs.filterMap (fun k => (alookup l k).map (fun e => (k, e))) =
      vs.map (fun k => (k, f k)) := by
  intro vs
  induction vs with
  | nil => intro _; rfl
  | cons x xs ih =>
    intro h
    simp only [List.filterMap_cons, List.map_cons, h x (List.mem_cons_self x xs),
      Option.map_some']
    rw [ih (fun k hk => h k (List.mem_cons_of_mem x hk))]

/-- Inverting a `getMeta` fact back into the registered type and property. -/
theorem getMeta_inv (g : Graph) (tk pk : String) (u : Bool) (et : String)
    (h : getMeta g tk pk = some (u, et)) :
    ∃ T p, g.objects.get tk = some (.typeNode T) ∧ T.properties.get pk = some p ∧
      p.unique = u ∧ p.expectedType = et := by
  rw [getMeta_unfold] at h
  split at h
  next T heq =>
    cases hp : T.properties.get pk with
    | none =>
      rw [hp] at h
      simp at h
    | some p =>
      rw [hp] at h
      simp at h
      exact ⟨T, p, heq, hp, h.1, h.2⟩
  next x hne => exact absurd h (by simp)

/-- Models `Data.Object.prototype.get` on a non-unique object-type property: the hash
of referenced objects. -/
theorem objGet_objs (g : Graph) (okey pk tk : String) (o : ObjectNode)
    (T : TypeNode) (p : Property) (H : Hash PEntry)
    (ho : g.getObj okey = some o)
    (htk : o.typeKey = some tk)
    (hT : g.objects.get tk = some (.typeNode T))
    (hp : T.properties.get pk = some p)
    (hval : isValueType p.expectedType = false)
    (hu : p.unique = false)
    (hH : alookup o.props pk = some H) :
    objGet g okey pk = .ohash H.entries := by
  simp only [objGet, ho, htk, hT, hp, hval, hu, hH]
  rfl

/-- Models `Data.Object.prototype.get` on a unique object-type property: the first
referenced object. -/
theorem objGet_uniqueObj (g : Graph) (okey pk tk rk : String) (o : ObjectNode)
    (T : TypeNode) (p : Property) (H : Hash PEntry)
    (ho : g.getObj okey = some o)
    (htk : o.typeKey = some tk)
    (hT : g.objects.get tk = some (.typeNode T))
    (hp : T.properties.get pk = some p)
    (hval : isValueType p.expectedType = false)
    (hu : p.unique = true)
    (hH : alookup o.props pk = some H)
    (hfirst : H.first = some (PEntry.obj rk)) :
    objGet g okey pk = .jobj rk := by
  simp only [objGet, ho, htk, hT, hp, hval, hu, hH, hfirst]
  simp

/-- Models `Data.Object.prototype.get` on a unique value-type property: the first
registered value. -/
theorem objGet_uniqueVal (g : Graph) (okey pk tk : String) (v : JSVal) (o : ObjectNode)
    (T : TypeNode) (p : Property) (H : Hash PEntry)
    (ho : g.getObj okey = some o)
    (htk : o.typeKey = some tk)
    (hT : g.objects.get tk = some (.typeNode T))
    (hp : T.properties.get pk = some p)
    (hval : isValueType p.expectedType = true)
    (hu : p.unique = true)
    (hH : alookup o.props pk = some H)
    (hfirst : (H.map pentryVal).first = some v) :
    objGet g okey pk = .jval v := by
  simp only [objGet, ho, htk, hT, hp, hval, hu, hH, hfirst]
  simp

/-- A schema type `Tag` with one string property. -/
def tagType : TypeSpec :=
  { name := "Tag", parent := none,
    properties := [("title", { name := "Title", unique := true, expectedType := "string" })] }

/-- A schema type `Person` with a plain value property, one scalar (unique)
reference to a tag and one array (non-unique) reference to tags. -/
def taggedPersonType : TypeSpec :=
  { name := "Person", parent := none,
    properties :=
      [("name", { name := "Name", unique := true, expectedType := "string" }),
       ("primary", { name := "Primary", unique := true, expectedType := "/type/tag" }),
       ("tags", { name := "Tags", unique := false, expectedType := "/type/tag" })] }

/-- The graph built from three tags and one person whose `tags` array holds
the element ids `vs` (and whose `primary` references `t1`). -/
def tagMerge (vs : List String) : Graph × Option String :=
  newGraph
    [("/type/tag", .tspec tagType), ("/type/person", .tspec taggedPersonType),
     ("t1", .ospec [("type", .one (.jstr "/type/tag")), ("title", .one (.jstr "T1"))]),
     ("t2", .ospec [("type", .one (.jstr "/type/tag")), ("title", .one (.jstr "T2"))]),
     ("t3", .ospec [("type", .one (.jstr "/type/tag")), ("title", .one (.jstr "T3"))]),
     ("p1", .ospec [("type", .one (.jstr "/type/person")),
                    ("name", .one (.jstr "Ann")),
                    ("primary", .one (.jstr "t1")),
                    ("tags", .arr (vs.map .jstr))])]

/-- The `/type/tag` node once all three tags are built. -/
def tagTypeNodeN : TypeNode :=
  { key := "/type/tag", name := "Tag",
    properties := ⟨[("title",
      { key := "title", unique := true, name := "Title", expectedType := "string",
        values := ⟨[("T1", .node ⟨.jstr "T1", ["t1"]⟩), ("T2", .node ⟨.jstr "T2", ["t2"]⟩),
                    ("T3", .node ⟨.jstr "T3", ["t3"]⟩)], ["T1", "T2", "T3"], 3⟩ })],
      ["title"], 1⟩,
    objects := ⟨[("t1", "t1"), ("t2", "t2"), ("t3", "t3")], ["t1", "t2", "t3"], 3⟩ }

/-- The `/type/person` node after the `name` and `primary` of `p1` are built but
before its `tags` are processed. -/
def taggedPersonTypeNodeN : TypeNode :=
  { key := "/type/person", name := "Person",
    properties := ⟨[
      ("name", { key := "name", unique := true, name := "Name", expectedType := "string",
                 values := ⟨[("Ann", .node ⟨.jstr "Ann", ["p1"]⟩)], ["Ann"], 1⟩ }),
      ("primary", { key := "primary", unique := true, name := "Primary",
                    expectedType := "/type/tag",
                    values := ⟨[("t1", .obj "t1")], ["t1"], 1⟩ }),
      ("tags", { key := "tags", unique := false, name := "Tags",
                 expectedType := "/type/tag", values := ⟨[], [], 0⟩ })],
      ["name", "primary", "tags"], 3⟩,
    objects := ⟨[("p1", "p1")], ["p1"], 1⟩ }

/-- A built tag node. -/
def tagNodeN (k title : String) (refs : List String) : ObjectNode :=
  { key := k, idField := none, revField := none, typeKey := some "/type/tag",
    data := [("type", .one (.jstr "/type/tag")), ("title", .one (.jstr title))],
    props := [("title", ⟨[(title, .val (.jstr title))], [title], 1⟩)],
    referencedObjects := refs }

/-- The `p1` node after its `tags` hash was reset to empty, just before the
reference loop runs. -/
def p1PreN (vs : List String) : ObjectNode :=
  { key := "p1", idField := none, revField := none, typeKey := some "/type/person",
    data := [("type", .one (.jstr "/type/person")), ("name", .one (.jstr "Ann")),
             ("primary", .one (.jstr "t1")), ("tags", .arr (vs.map .jstr))],
    props := [("name", ⟨[("Ann", .val (.jstr "Ann"))], ["Ann"], 1⟩),
              ("primary", ⟨[("t1", .obj "t1")], ["t1"], 1⟩),
              ("tags", ⟨[], [], 0⟩)],
    referencedObjects := [] }

/-- The whole state just before the reference loop of `p1` over `tags` runs. -/
def gPreN (vs : List String) : Graph :=
  ⟨⟨[("/type/tag", .typeNode tagTypeNodeN),
     ("/type/person", .typeNode taggedPersonTypeNodeN),
     ("t1", .objNode (tagNodeN "t1" "T1" ["p1"])),
     ("t2", .objNode (tagNodeN "t2" "T2" [])),
     ("t3", .objNode (tagNodeN "t3" "T3" [])),
     ("p1", .objNode (p1PreN vs))],
    ["/type/tag", "/type/person", "t1", "t2", "t3", "p1"], 6⟩⟩

theorem map_jstr_toKey (vs : List String) :
    (vs.map JSVal.jstr).map JSVal.toKey = vs := by
  induction vs with
  | nil => rfl
  | cons x xs ih => simp [ih, JSVal.toKey]

theorem map_jstr_pair (vs : List String) :
    (vs.map JSVal.jstr).map (fun v => (v.toKey, PEntry.obj v.toKey)) =
      vs.map (fun x => (x, PEntry.obj x)) := by
  induction vs with
  | nil => rfl
  | cons x xs ih => simp [ih, JSVal.toKey]

/-- C7 (counterexample): with duplicate element ids (`tags = ["t1","t1"]`),
the result is the hash keyed by object id, which collapses the duplicates --
one entry instead of a node per element, so the result is not the element-wise
image of the original array. -/
theorem C7_counterexample :
    (tagMerge ["t1", "t1"]).2 = none ∧
    objGet (tagMerge ["t1", "t1"]).1 "p1" "tags" = .ohash [("t1", PEntry.obj "t1")] ∧
    JSRes.ohash [("t1", PEntry.obj "t1")] ≠
      JSRes.ohash [("t1", PEntry.obj "t1"), ("t1", PEntry.obj "t1")] := by
  refine ⟨by decide, by decide, by decide⟩

/-- A bare tag type with no properties, and a person type with only the
array-reference property, to keep the symbolic computation small. -/
def tagTypeMin : TypeSpec := { name := "Tag", parent := none, properties := [] }

def tagPersonMin : TypeSpec :=
  { name := "Person", parent := none,
    properties := [("tags", { name := "Tags", unique := false,
                              expectedType := "/type/tag" })] }

/-- The graph built from two bare tags and one person whose `tags` array holds
the element ids `vs`. -/
def tagsMerge (vs : List String) : Graph × Option String :=
  newGraph
    [("/type/tag", .tspec tagTypeMin), ("/type/person", .tspec tagPersonMin),
     ("t1", .ospec [("type", .one (.jstr "/type/tag"))]),
     ("t2", .ospec [("type", .one (.jstr "/type/tag"))]),
     ("p1", .ospec [("type", .one (.jstr "/type/person")),
                    ("tags", .arr (vs.map .jstr))])]

/-- A bare built tag node. -/
def tagMinN (k : String) : ObjectNode :=
  { key := k, idField := none, revField := none, typeKey := some "/type/tag",
    data := [("type", .one (.jstr "/type/tag"))], props := [],
    referencedObjects := [] }

/-- The `p1` node of `tagsMerge` after its `tags` hash was reset to empty,
just before the reference loop runs. -/
def p1MinN (vs : List String) : ObjectNode :=
  { key := "p1", idField := none, revField := none, typeKey := some "/type/person",
    data := [("type", .one (.jstr "/type/person")), ("tags", .arr (vs.map .jstr))],
    props := [("tags", ⟨[], [], 0⟩)], referencedObjects := [] }

/-- The whole `tagsMerge` state just before the reference loop over `tags`. -/
def gPreMin (vs : List String) : Graph :=
  ⟨⟨[("/type/tag", .typeNode
      { key := "/type/tag", name := "Tag", properties := ⟨[], [], 0⟩,
        objects := ⟨[("t1", "t1"), ("t2", "t2")], ["t1", "t2"], 2⟩ }),
     ("/type/person", .typeNode
      { key := "/type/person", name := "Person",
        properties := ⟨[("tags",
          { key := "tags", unique := false, name := "Tags",
            expectedType := "/type/tag", values := ⟨[], [], 0⟩ })], ["tags"], 1⟩,
        objects := ⟨[("p1", "p1")], ["p1"], 1⟩ }),
     ("t1", .objNode (tagMinN "t1")),
     ("t2", .objNode (tagMinN "t2")),
     ("p1", .objNode (p1MinN vs))],
    ["/type/tag", "/type/person", "t1", "t2", "p1"], 5⟩⟩

set_option maxHeartbeats 4000000 in
/-- Unfolding `tagsMerge vs` down to the reference loop over the symbolic
element list. -/
theorem tagsMerge_unfold (vs : List String) :
    tagsMerge vs =
      (match (match buildRefValues (gPreMin vs) "p1" "tags" "/type/person"
                (vs.map JSVal.jstr) with
              | (g2, some e) => (g2, some e)
              | (g2, none) => buildData g2 "p1" []) with
       | (g2, some e) => (g2, some e)
       | (g2, none) => buildAll g2 []) := rfl

set_option maxHeartbeats 1000000 in
/-- C7 (amended): for distinct element ids referencing present nodes, reading
the array-reference property back returns the hash of the referenced node
objects themselves -- each one present in the graph under its id -- in the
original element order (duplicate ids would collapse, see the counterexample);
a scalar reference yields the referenced node, and a plain value is returned
unchanged. -/
theorem C7_refs_resolve_in_order (vs : List String) (hnd : vs.Nodup)
    (hsub : ∀ x ∈ vs, x ∈ (["t1", "t2"] : List String)) :
    (∃ gR, tagsMerge vs = (gR, none) ∧
      objGet gR "p1" "tags" = .ohash (vs.map (fun k => (k, PEntry.obj k))) ∧
      (∀ k ∈ vs, ∃ o, gR.getObj k = some o ∧ o.key = k)) ∧
    objGet (tagMerge ["t2", "t1"]).1 "p1" "tags" =
      .ohash [("t2", PEntry.obj "t2"), ("t1", PEntry.obj "t1")] ∧
    objGet (tagMerge ["t2", "t1"]).1 "p1" "primary" = .jobj "t1" ∧
    objGet (tagMerge ["t2", "t1"]).1 "p1" "name" = .jval (.jstr "Ann") := by
  refine ⟨?_, by decide, by decide, by decide⟩
  -- hypotheses of the reference-loop lemma at the pre-loop state
  have h3 : ∀ v ∈ vs.map JSVal.jstr,
      (((gPreMin vs).getObj v.toKey).map ObjectNode.key) = some v.toKey := by
    intro v hv
    obtain ⟨x, hx, rfl⟩ := List.mem_map.mp hv
    rcases (by simpa using hsub x hx : x = "t1" ∨ x = "t2") with rfl | rfl
    · rfl
    · rfl
  have h4 : ∀ v ∈ vs.map JSVal.jstr,
      alookup (⟨[], [], 0⟩ : Hash PEntry).data v.toKey = none := fun _ _ => rfl
  have h5 : ((vs.map JSVal.jstr).map JSVal.toKey).Nodup := by
    rw [map_jstr_toKey]
    exact hnd
  obtain ⟨gR, oR, hbr, hoR, htkR, hhashR, hpropsR, hpresR, hmetaR⟩ :=
    buildRefValues_ok (vs.map JSVal.jstr) (gPreMin vs) "p1" "tags" "/type/person"
      (p1MinN vs) ⟨[], [], 0⟩ rfl rfl h3 h4 h5
  have hm : tagsMerge vs = (gR, none) := by
    rw [tagsMerge_unfold, hbr]
    rfl
  obtain ⟨Tt, pt, hTt, hpt, hptu, hpte⟩ :=
    getMeta_inv gR "/type/person" "tags" false "/type/tag"
      ((hmetaR "/type/person" "tags").trans rfl)
  have htk2 : oR.typeKey = some "/type/person" := htkR.trans rfl
  refine ⟨gR, hm, ?_, ?_⟩
  · -- the tags hash, in element order
    have hH : alookup oR.props "tags" = some
        ⟨vs.map (fun x => (x, PEntry.obj x)), vs, 0 + (vs.map JSVal.jstr).length⟩ := by
      rw [hhashR]
      simp only [map_jstr_pair, map_jstr_toKey, List.nil_append]
    rw [objGet_objs gR "p1" "tags" "/type/person" oR Tt pt _ hoR htk2 hTt hpt
      (by rw [hpte]; rfl) hptu hH]
    rw [show Hash.entries (⟨vs.map (fun x => (x, PEntry.obj x)), vs,
        0 + (vs.map JSVal.jstr).length⟩ : Hash PEntry) =
      vs.filterMap (fun k => (alookup (vs.map (fun x => (x, PEntry.obj x))) k).map
        (fun e => (k, e))) from rfl]
    rw [filterMap_entries _ (fun k => PEntry.obj k) vs
      (fun k hk => alookup_map_self vs _ k hk)]
  · -- every referenced node is present under its id
    intro k hk
    have hkview : ((gR.getObj k).map ObjectNode.key) = some k := by
      rw [hpresR k]
      rcases (by simpa using hsub k hk : k = "t1" ∨ k = "t2") with rfl | rfl
      · rfl
      · rfl
    cases hx : gR.getObj k with
    | none =>
      rw [hx] at hkview
      simp at hkview
    | some o2 =>
      rw [hx] at hkview
      simp at hkview
      exact ⟨o2, rfl, hkview⟩

/-- Witness for C7 at the element list `["t2", "t1"]` (an order different from
the creation order, showing element order is what is preserved). -/
theorem C7_refs_resolve_in_order_witness :
    (∃ gR, tagsMerge ["t2", "t1"] = (gR, none) ∧
      objGet gR "p1" "tags" =
        .ohash [("t2", PEntry.obj "t2"), ("t1", PEntry.obj "t1")] ∧
      (∀ k ∈ (["t2", "t1"] : List String), ∃ o, gR.getObj k = some o ∧ o.key = k)) ∧
    objGet (tagMerge ["t2", "t1"]).1 "p1" "tags" =
      .ohash [("t2", PEntry.obj "t2"), ("t1", PEntry.obj "t1")] ∧
    objGet (tagMerge ["t2", "t1"]).1 "p1" "primary" = .jobj "t1" ∧
    objGet (tagMerge ["t2", "t1"]).1 "p1" "name" = .jval (.jstr "Ann") :=
  C7_refs_resolve_in_order ["t2", "t1"] (by decide) (by decide)

/-! ## C9: the `Data.Object` constructor and the record of the caller -/

theorem alookup_aerase_ne {V : Type} (l : List (String × V)) (k k' : String)
    (h : k ≠ k') : alookup (aerase l k) k' = alookup l k' := by
  induction l with
  | nil => rfl
  | cons hd tl ih =>
    obtain ⟨a, b⟩ := hd
    by_cases ha : a = k
    · subst ha
      simp [aerase, alookup, h]
    · simp only [aerase, ha, if_false]
      by_cases ha' : a = k'
      · simp [alookup, ha']
      · simp [alookup, ha', ih]

/-- On a record with no duplicate keys (every JavaScript record), `delete r[k]`
is the filter dropping the binding of `k`. -/
theorem aerase_eq_filter {V : Type} (l : List (String × V)) (k : String)
    (h : (l.map Prod.fst).Nodup) :
    aerase l k = l.filter (fun kv => !(kv.1 == k)) := by
  induction l with
  | nil => rfl
  | cons hd tl ih =>
    obtain ⟨a, b⟩ := hd
    simp only [List.map_cons, List.nodup_cons] at h
    by_cases ha : a = k
    · subst ha
      simp only [aerase, if_pos rfl, List.filter_cons,
        show ((a, b).1 == a) = true from by simp, Bool.not_true, if_neg]
      symm
      apply List.filter_eq_self.mpr
      intro kv hkv
      have hne : kv.1 ≠ a := by
        intro hkv1
        exact h.1 (hkv1 ▸ List.mem_map_of_mem Prod.fst hkv)
      simp [hne]
    · simp only [aerase, if_neg ha, List.filter_cons,
        show (!((a, b).1 == k)) = true from by simp [ha]]
      simp [ih h.2]

theorem nodup_keys_aerase {V : Type} (l : List (String × V)) (k : String)
    (h : (l.map Prod.fst).Nodup) : ((aerase l k).map Prod.fst).Nodup := by
  rw [aerase_eq_filter l k h]
  exact (List.Sublist.map Prod.fst (List.filter_sublist l)).nodup h

/-- C9 (counterexample): constructing a `Data.Object` from a record carrying
`_id` does not leave the record of the caller unmodified: the `_id` binding is
deleted in place, and the `data` of the node is the mutated record itself (no
copy of any kind is taken). -/
theorem C9_counterexample :
    (mkObject "p1" [("_id", .one (.jstr "abc")),
                    ("type", .one (.jstr "/type/person")),
                    ("name", .one (.jstr "Ann"))]).data ≠
      [("_id", RawVal.one (JSVal.jstr "abc")),
       ("type", RawVal.one (JSVal.jstr "/type/person")),
       ("name", RawVal.one (JSVal.jstr "Ann"))] ∧
    (mkObject "p1" [("_id", .one (.jstr "abc")),
                    ("type", .one (.jstr "/type/person")),
                    ("name", .one (.jstr "Ann"))]).data =
      [("type", RawVal.one (JSVal.jstr "/type/person")),
       ("name", RawVal.one (JSVal.jstr "Ann"))] := by
  decide

/-- C9 (amended): the `Data.Object` constructor captures `_id` and `_rev` and
deletes them from the caller-supplied record; the stored `data` of the node is that
same mutated record -- the input minus the `_id`/`_rev` bindings, with every
other binding kept by reference, in order and uncopied. -/
theorem C9_ctor_strips_id_rev (key : String) (r : RawRecord)
    (h : (r.map Prod.fst).Nodup) :
    (mkObject key r).data =
      r.filter (fun kv => !(kv.1 == "_id" || kv.1 == "_rev")) ∧
    (mkObject key r).idField = alookup r "_id" ∧
    (mkObject key r).revField = alookup r "_rev" := by
  refine ⟨?_, rfl, ?_⟩
  · show aerase (aerase r "_id") "_rev" = _
    rw [aerase_eq_filter r "_id" h,
      aerase_eq_filter (r.filter (fun kv => !(kv.1 == "_id"))) "_rev"
        ((List.Sublist.map Prod.fst (List.filter_sublist r)).nodup h),
      List.filter_filter]
    apply List.filter_congr
    intro kv hkv
    cases hid : kv.1 == "_id" <;> cases hrev : kv.1 == "_rev" <;> simp [hid, hrev]
  · show alookup (aerase r "_id") "_rev" = alookup r "_rev"
    exact alookup_aerase_ne r "_id" "_rev" (by decide)

/-- Witness for C9 at a concrete record with `_id`, `_rev` and two data
keys. -/
theorem C9_ctor_strips_id_rev_witness :
    (mkObject "p1" [("_id", .one (.jstr "abc")), ("_rev", .one (.jstr "7")),
                    ("type", .one (.jstr "/type/person")),
                    ("name", .one (.jstr "Ann"))]).data =
      [("_id", RawVal.one (JSVal.jstr "abc")), ("_rev", RawVal.one (JSVal.jstr "7")),
       ("type", RawVal.one (JSVal.jstr "/type/person")),
       ("name", RawVal.one (JSVal.jstr "Ann"))].filter
        (fun kv => !(kv.1 == "_id" || kv.1 == "_rev")) ∧
    (mkObject "p1" [("_id", .one (.jstr "abc")), ("_rev", .one (.jstr "7")),
                    ("type", .one (.jstr "/type/person")),
                    ("name", .one (.jstr "Ann"))]).idField =
      alookup [("_id", RawVal.one (JSVal.jstr "abc")), ("_rev", RawVal.one (JSVal.jstr "7")),
               ("type", RawVal.one (JSVal.jstr "/type/person")),
               ("name", RawVal.one (JSVal.jstr "Ann"))] "_id" ∧
    (mkObject "p1" [("_id", .one (.jstr "abc")), ("_rev", .one (.jstr "7")),
                    ("type", .one (.jstr "/type/person")),
                    ("name", .one (.jstr "Ann"))]).revField =
      alookup [("_id", RawVal.one (JSVal.jstr "abc")), ("_rev", RawVal.one (JSVal.jstr "7")),
               ("type", RawVal.one (JSVal.jstr "/type/person")),
               ("name", RawVal.one (JSVal.jstr "Ann"))] "_rev" :=
  C9_ctor_strips_id_rev "p1"
    [("_id", .one (.jstr "abc")), ("_rev", .one (.jstr "7")),
     ("type", .one (.jstr "/type/person")), ("name", .one (.jstr "Ann"))]
    (by decide)

end Data
